import Mathlib

/-!
Verification development for the EZ-LLMcouncil frontend meeting
orchestration code.  The definitions below are shallow embeddings of the
TypeScript source: the MeetingManager (meeting map, cancellation, restore,
cleanup, SSE event handling), the ChatInterface SSE listeners (initial
send path and reconnect path), the ProgressDisplay grouping and sorting
logic, and a spec-modelled Ranking Aggregator (the backend is not part of
the repository).  JavaScript string operations used by the source
(String.prototype.includes, single-occurrence String.prototype.replace)
are embedded as jsIncludes and jsReplaceFirst.
-/

namespace LLMCouncil

/-- Prefix test on character lists, used to embed the JavaScript
substring operations by structural recursion. -/
def charPrefix : List Char → List Char → Bool
  | [], _ => true
  | _ :: _, [] => false
  | p :: ps, c :: cs => p == c && charPrefix ps cs

/-- Index of the first occurrence of pat inside s, on character lists. -/
def firstOccurrence (pat : List Char) : List Char → Option Nat
  | [] => if charPrefix pat [] then some 0 else none
  | c :: cs =>
      if charPrefix pat (c :: cs) then some 0
      else (firstOccurrence pat cs).map (fun i => i + 1)

/-- Embedding of the JavaScript expression s.includes(pat): true when pat
occurs as a substring of s. -/
def jsIncludes (s pat : String) : Bool :=
  (firstOccurrence pat.data s.data).isSome

/-- Embedding of the JavaScript expression s.replace(pat, rep) for string
patterns, which replaces only the first occurrence. -/
def jsReplaceFirst (s pat rep : String) : String :=
  match firstOccurrence pat.data s.data with
  | none => s
  | some i =>
      String.mk (s.data.take i ++ rep.data ++ s.data.drop (i + pat.data.length))

/-- Per-model status record used by ChatInterface and ProgressDisplay
(interface ModelStatus in ProgressDisplay). -/
structure ModelStatus where
  status : String
  error : Option String := none
  current_retry : Option Nat := none
  max_retries : Option Nat := none
deriving Repr, DecidableEq

/-- Stage 1 result as accumulated by the frontend (interface Stage1Result
in MessageDisplay): model id, response text, timestamp, optional error. -/
structure Stage1Result where
  model : String
  response : String
  timestamp : String
  error : Option String := none
deriving Repr, DecidableEq

/-- Stage 2 result as accumulated by the frontend: reviewer model,
label-to-score map, raw text, label mapping, timestamp, participation
flag, skip reason, optional error. -/
structure Stage2Result where
  model : String
  scores : List (String × Rat) := []
  raw_text : String := ""
  label_to_model : List (String × String) := []
  timestamp : String := ""
  participated : Option Bool := none
  skip_reason : Option String := none
  error : Option String := none
deriving Repr, DecidableEq

/-- Stage 3 result as accumulated by the frontend. -/
structure Stage3Result where
  response : Option String := none
  timestamp : String := ""
  error : Option String := none
deriving Repr, DecidableEq

/-- One ranking entry of a Stage 4 result.  The rank field is 1-based.
Also used by the spec-modelled Ranking Aggregator. -/
structure RankingEntry where
  rank : Nat := 0
  label : String := ""
  model : String := ""
  avgScore : Rat := 0
  scoreCount : Nat := 0
  response : String := ""
  stage1Order : Nat := 0
  scorerValid : Bool := true
  scorerReason : Option String := none
deriving Repr, DecidableEq

/-- Stage 4 result as accumulated by the frontend. -/
structure Stage4Result where
  rankings : List RankingEntry := []
  best_answer : String := ""
  timestamp : String := ""
  error : Option String := none
deriving Repr, DecidableEq

/-- Chat message (interface Message): role, content, the participant
models of a user message, the streaming flag of an in-flight assistant
message, the per-stage results of an assistant message, and the model
status map displayed with it. -/
structure Message where
  role : String
  content : Option String := none
  models : Option (List String) := none
  streaming : Bool := false
  stage1 : Option (List Stage1Result) := none
  stage2 : Option (List Stage2Result) := none
  stage3 : Option Stage3Result := none
  stage4 : Option Stage4Result := none
  modelStatuses : Option (List (String × ModelStatus)) := none
  timestamp : String := ""
deriving Repr, DecidableEq

/- ===================== MeetingManager (meetingManager.ts) ============ -/

/-- Frontend meeting state held by the MeetingManager (interface
MeetingState).  The eventSource handle is modelled by the Boolean
eventSourceOpen: true when a non-null EventSource is stored.  The
progress object is modelled by the fields the manager actually writes:
the error recorded by the error event and the list of stage event names
appended by the generic branch. -/
structure MeetingState where
  meetingId : String
  convId : String
  status : String
  progressError : Option String := none
  progressEvents : List String := []
  eventSourceOpen : Bool := false
  createdAt : Int := 0
deriving Repr, DecidableEq

/-- Parsed server-sent event as dispatched to the MeetingManager
subscription listeners. -/
inductive MeetingEvent where
  | progressBulk (status : Option String)
  | complete
  | errorEvent (msg : Option String)
  | heartbeat
  | stageEvent (name : String)
deriving Repr, DecidableEq

/-- The listener body registered for every event type in
MeetingManager.subscribeMeeting: updates the meeting state from the event
and, on complete or error, closes the connection and clears the stored
handle. -/
def handleMeetingEvent (st : MeetingState) (e : MeetingEvent) : MeetingState :=
  let st2 :=
    match e with
    | .progressBulk s => { st with status := s.getD st.status }
    | .complete => { st with status := "completed" }
    | .errorEvent m => { st with status := "failed", progressError := m }
    | .heartbeat => st
    | .stageEvent n => { st with progressEvents := st.progressEvents ++ [n] }
  match e with
  | .complete => { st2 with eventSourceOpen := false }
  | .errorEvent _ => { st2 with eventSourceOpen := false }
  | _ => st2

/-- The connection-level error listener registered immediately after the
typed listeners in subscribeMeeting: it unconditionally overwrites the
status with connection_error. -/
def handleConnectionError (st : MeetingState) : MeetingState :=
  { st with status := "connection_error" }

/-- Full dispatch of a server-sent event named error: both listeners for
the type error run in registration order, first the typed listener of the
event loop, then the connection-level listener. -/
def dispatchServerError (st : MeetingState) (msg : Option String) : MeetingState :=
  handleConnectionError (handleMeetingEvent st (.errorEvent msg))

/-- Live delivery model: an EventSource delivers an event to its
listeners only while the connection is open. -/
def deliverLive (st : MeetingState) (e : MeetingEvent) : MeetingState :=
  if st.eventSourceOpen then handleMeetingEvent st e else st

/-- The terminal-status test written literally at several places of the
manager: completed, failed or cancelled. -/
def isTerminalStatus (s : String) : Bool :=
  s == "completed" || s == "failed" || s == "cancelled"

/-- The meeting map of the MeetingManager, keyed by meeting id. -/
abbrev MeetingMap := List (String × MeetingState)

/-- Lookup in the meeting map (Map.prototype.get). -/
def lookupMeeting (ms : MeetingMap) (id : String) : Option MeetingState :=
  (ms.find? (fun p => p.1 == id)).map Prod.snd

/-- Pointwise update of the entry with the given key. -/
def updateMeeting (ms : MeetingMap) (id : String) (f : MeetingState → MeetingState) : MeetingMap :=
  ms.map (fun p => if p.1 == id then (p.1, f p.2) else p)

/-- Map.prototype.set: overwrite the existing entry or append a new one. -/
def insertMeeting (ms : MeetingMap) (id : String) (st : MeetingState) : MeetingMap :=
  if ms.any (fun p => p.1 == id) then updateMeeting ms id (fun _ => st)
  else ms ++ [(id, st)]

/-- MeetingManager.getConversationMeetings: all meetings of one
conversation, in map order. -/
def getConversationMeetings (ms : MeetingMap) (conv : String) : List MeetingState :=
  (ms.map Prod.snd).filter (fun m => m.convId == conv)

/-- MeetingManager.getActiveMeeting: the first meeting of the
conversation whose status is none of completed, failed, cancelled. -/
def getActiveMeeting (ms : MeetingMap) (conv : String) : Option MeetingState :=
  (getConversationMeetings ms conv).find? (fun m =>
    m.status != "completed" && m.status != "failed" && m.status != "cancelled")

/-- State change applied by MeetingManager.cancelMeeting to the
cancelled meeting: the stored EventSource is closed and cleared and the
status becomes cancelled. -/
def cancelUpdate (s : MeetingState) : MeetingState :=
  { s with eventSourceOpen := false, status := "cancelled" }

/-- MeetingManager.cancelMeeting: unknown ids are ignored; otherwise
cancelUpdate is applied to the stored state.  The backend cancel call is
specified idempotent and is modelled as succeeding. -/
def cancelMeeting (ms : MeetingMap) (id : String) : MeetingMap :=
  match lookupMeeting ms id with
  | none => ms
  | some _ => updateMeeting ms id cancelUpdate

/-- Snapshot returned by the backend status query used during
reconnection (getMeetingStatus). -/
structure FetchedMeeting where
  status : String
  progressError : Option String := none
deriving Repr, DecidableEq

/-- MeetingManager.reconnectMeeting: for a known meeting, fetch the
latest backend snapshot, overwrite the local status and progress, and
re-subscribe (open a fresh EventSource) only when the fetched status is
not terminal.  A failed status fetch is logged and rethrown by the
catch branch, so the result is an Except: ok carries the map of a
normal return, error carries the map as it stood when the exception
propagated (nothing had been written yet, since the assignments follow
the awaited fetch).  The backend is modelled by an association list from
meeting id to snapshot; an id absent from it makes the fetch throw. -/
def reconnectMeeting (fetch : List (String × FetchedMeeting)) (ms : MeetingMap)
    (id : String) : Except MeetingMap MeetingMap :=
  match lookupMeeting ms id with
  | none => .ok ms
  | some _ =>
      match (fetch.find? (fun p => p.1 == id)).map Prod.snd with
      | none => .error ms
      | some latest =>
          .ok (updateMeeting ms id (fun st =>
            let st2 := { st with status := latest.status,
                                 progressError := latest.progressError }
            if st2.status != "completed" && st2.status != "failed"
               && st2.status != "cancelled"
            then { st2 with eventSourceOpen := true }
            else st2))

/-- One record of the activeMeetings entry parsed from localStorage. -/
structure StoredMeeting where
  meetingId : String
  convId : String
  status : String
  createdAt : Int := 0
deriving Repr, DecidableEq

/-- State a stored record is put back into the map with before
reconnection: its stored fields and a null EventSource. -/
def storedInitState (d : StoredMeeting) : MeetingState :=
  { meetingId := d.meetingId, convId := d.convId, status := d.status,
    createdAt := d.createdAt, eventSourceOpen := false }

/-- MeetingManager.restoreMeetingsFromStorage: every stored record whose
status is not terminal is put back into the map with a null EventSource
and reconnected; terminal records are skipped.  The whole loop runs
inside one try/catch, so the first reconnection whose status fetch
throws aborts the loop: the failing record stays inserted with its
stored status, no later record is processed, and the catch only
logs. -/
def restoreMeetingsFromStorage (fetch : List (String × FetchedMeeting)) :
    MeetingMap → List StoredMeeting → MeetingMap
  | ms, [] => ms
  | ms, d :: rest =>
      if d.status != "completed" && d.status != "failed"
         && d.status != "cancelled" then
        match reconnectMeeting fetch
            (insertMeeting ms d.meetingId (storedInitState d)) d.meetingId with
        | .ok ms2 => restoreMeetingsFromStorage fetch ms2 rest
        | .error ms2 => ms2
      else restoreMeetingsFromStorage fetch ms rest

/-- State in which a stored meeting record ends up once the restore loop
processed it: the record is put back with a closed connection, then
reconnection overwrites status and progress from the backend snapshot
and re-opens the connection exactly when the fetched status is not
terminal.  A record whose snapshot fetch throws keeps its stored status
and stays unsubscribed (and the loop aborts there). -/
def restoredState (fetch : List (String × FetchedMeeting)) (d : StoredMeeting) :
    MeetingState :=
  match (fetch.find? (fun p => p.1 == d.meetingId)).map Prod.snd with
  | none => storedInitState d
  | some latest =>
      let st2 : MeetingState :=
        { storedInitState d with status := latest.status,
                                 progressError := latest.progressError }
      if st2.status != "completed" && st2.status != "failed"
         && st2.status != "cancelled"
      then { st2 with eventSourceOpen := true }
      else st2

/-- Collection pass of MeetingManager.cleanupCompletedMeetings: the ids
of meetings whose status is terminal and whose age exceeds maxAge.  The
listeners map is modelled by the list of meeting ids that have
listeners. -/
def cleanupRemovedIds (ms : MeetingMap) (now maxAge : Int) : List String :=
  (ms.filter (fun p =>
    (p.2.status == "completed" || p.2.status == "failed"
      || p.2.status == "cancelled")
    && now - p.2.createdAt > maxAge)).map Prod.fst

/-- Deletion pass of cleanupCompletedMeetings: drop the collected ids
from the meeting map and from the listeners map. -/
def cleanupCompletedMeetings (ms : MeetingMap) (listeners : List String)
    (now : Int) (maxAge : Int := 24 * 60 * 60 * 1000) :
    MeetingMap × List String :=
  let toRemove := cleanupRemovedIds ms now maxAge
  ((ms.filter (fun p => !(toRemove.contains p.1))),
   (listeners.filter (fun l => !(toRemove.contains l))))

/- ===================== ChatInterface listeners ====================== -/

/-- Payload of a stage1_progress server event as read by the listeners. -/
structure Stage1ProgressData where
  model : String
  status : Option String := none
  response : Option String := none
  error : Option String := none
  current_retry : Option Nat := none
  max_retries : Option Nat := none
deriving Repr, DecidableEq

/-- Payload of a stage2_progress server event as read by the listeners. -/
structure Stage2ProgressData where
  model : String
  scores : List (String × Rat) := []
  raw_text : String := ""
  label_to_model : List (String × String) := []
  participated : Option Bool := none
  skip_reason : Option String := none
  error : Option String := none
deriving Repr, DecidableEq

/-- The findIndex-then-set-or-push pattern used by every progress
listener to fold one result into the accumulated stage1 list. -/
def upsertStage1 (rs : List Stage1Result) (r : Stage1Result) : List Stage1Result :=
  match rs.findIdx? (fun x => x.model == r.model) with
  | some i => rs.set i r
  | none => rs ++ [r]

/-- The findIndex-then-set-or-push pattern for the stage2 list. -/
def upsertStage2 (rs : List Stage2Result) (r : Stage2Result) : List Stage2Result :=
  match rs.findIdx? (fun x => x.model == r.model) with
  | some i => rs.set i r
  | none => rs ++ [r]

/-- The stage1_progress listener of the initial send path, restricted to
its effect on the accumulated stage1Results closure variable: retrying
notifications leave the list unchanged, any other payload is upserted
with a fresh timestamp.  The listener has no completion guard. -/
def stage1ProgressInitial (now : String) (rs : List Stage1Result)
    (d : Stage1ProgressData) : List Stage1Result :=
  if d.status == some "retrying" then rs
  else upsertStage1 rs
    { model := d.model, response := d.response.getD "", timestamp := now,
      error := d.error }

/-- The stage1_complete listener of the initial send path: the
accumulated list is replaced wholesale by the results of the event. -/
def stage1CompleteInitial (results : List Stage1Result)
    (_rs : List Stage1Result) : List Stage1Result :=
  results

/-- The stage2_progress listener of the initial send path, restricted to
its effect on the accumulated stage2Results closure variable. -/
def stage2ProgressInitial (now : String) (rs : List Stage2Result)
    (d : Stage2ProgressData) : List Stage2Result :=
  upsertStage2 rs
    { model := d.model, scores := d.scores, raw_text := d.raw_text,
      label_to_model := d.label_to_model, timestamp := now,
      participated := d.participated, skip_reason := d.skip_reason,
      error := d.error }

/-- The stage2_complete listener of the initial send path. -/
def stage2CompleteInitial (results : List Stage2Result)
    (_rs : List Stage2Result) : List Stage2Result :=
  results

/-- Closure state of one reconnect-path stage: the completion flag of
stageCompletedRef and the accumulated results of resultsRef. -/
structure ReconnectStage1State where
  completed : Bool := false
  results : List Stage1Result := []
deriving Repr, DecidableEq

/-- Closure state of the reconnect-path stage2 accumulation. -/
structure ReconnectStage2State where
  completed : Bool := false
  results : List Stage2Result := []
deriving Repr, DecidableEq

/-- The stage1_progress listener of the reconnect path: events for a
switched conversation or meeting are dropped, events arriving after the
stage1 completion flag is set are ignored, retrying notifications do not
touch the results, and anything else is upserted. -/
def stage1ProgressReconnect (convMatch meetingMatch : Bool) (now : String)
    (s : ReconnectStage1State) (d : Stage1ProgressData) : ReconnectStage1State :=
  if !convMatch then s
  else if !meetingMatch then s
  else if s.completed then s
  else if d.status == some "retrying" then s
  else
    let r : Stage1Result :=
      { model := d.model, response := d.response.getD "", timestamp := now,
        error := d.error }
    { s with results := upsertStage1 s.results r }

/-- The stage1_complete listener of the reconnect path: the completion
flag is set first, before any guard, then the results are replaced when
conversation and meeting still match. -/
def stage1CompleteReconnect (convMatch meetingMatch : Bool)
    (s : ReconnectStage1State) (results : List Stage1Result) : ReconnectStage1State :=
  let s2 := { s with completed := true }
  if !convMatch then s2
  else if !meetingMatch then s2
  else { s2 with results := results }

/-- The stage2_progress listener of the reconnect path. -/
def stage2ProgressReconnect (convMatch meetingMatch : Bool) (now : String)
    (s : ReconnectStage2State) (d : Stage2ProgressData) : ReconnectStage2State :=
  if !convMatch then s
  else if !meetingMatch then s
  else if s.completed then s
  else
    let r : Stage2Result :=
      { model := d.model, scores := d.scores, raw_text := d.raw_text,
        label_to_model := d.label_to_model, timestamp := now,
        participated := d.participated, skip_reason := d.skip_reason,
        error := d.error }
    { s with results := upsertStage2 s.results r }

/-- The stage2_complete listener of the reconnect path: completion flag
first, then replacement under the matching guards. -/
def stage2CompleteReconnect (convMatch meetingMatch : Bool)
    (s : ReconnectStage2State) (results : List Stage2Result) : ReconnectStage2State :=
  let s2 := { s with completed := true }
  if !convMatch then s2
  else if !meetingMatch then s2
  else { s2 with results := results }

/-- Partial update object passed to updateAssistantMessage.  A some value
means the corresponding key is present in the updates object; the stage3
and stage4 keys may be present yet hold undefined. -/
structure MsgUpdates where
  stage1 : Option (List Stage1Result) := none
  stage2 : Option (List Stage2Result) := none
  stage3 : Option (Option Stage3Result) := none
  stage4 : Option (Option Stage4Result) := none
  modelStatuses : Option (List (String × ModelStatus)) := none
deriving Repr, DecidableEq

/-- Spread-merge of an updates object into a message, with the explicit
modelStatuses fallback written in the source. -/
def applyUpdates (m : Message) (u : MsgUpdates) : Message :=
  { m with
    stage1 := (match u.stage1 with | some v => some v | none => m.stage1),
    stage2 := (match u.stage2 with | some v => some v | none => m.stage2),
    stage3 := (match u.stage3 with | some v => v | none => m.stage3),
    stage4 := (match u.stage4 with | some v => v | none => m.stage4),
    modelStatuses := (match u.modelStatuses with
      | some v => some v
      | none => m.modelStatuses) }

/-- Index of the last message that is an assistant message with the
streaming flag: the backwards for-loop of updateAssistantMessage stops at
the first such message from the end. -/
def findLastStreamingAssistant : List Message → Option Nat
  | [] => none
  | m :: rest =>
      match findLastStreamingAssistant rest with
      | some i => some (i + 1)
      | none => if m.role == "assistant" && m.streaming then some 0 else none

/-- ChatInterface.updateAssistantMessage: when a meeting conversation id
is supplied and differs from the current conversation the update is
dropped; otherwise the last streaming assistant message, if any, receives
the merged updates and every other message is kept. -/
def updateAssistantMessage (currentConvId : Option String)
    (meetingConvId : Option String) (u : MsgUpdates)
    (msgs : List Message) : List Message :=
  if meetingConvId.isSome && meetingConvId != currentConvId then msgs
  else
    match findLastStreamingAssistant msgs with
    | none => msgs
    | some i =>
        match msgs[i]? with
        | none => msgs
        | some m => msgs.set i (applyUpdates m u)

/-- Component state touched by handleSendMessage before and while opening
the SSE connection. -/
structure ChatSendState where
  messages : List Message := []
  modelStatuses : List (String × ModelStatus) := []
  isStreaming : Bool := false
  error : Option String := none
  connOpen : Bool := false
deriving Repr, DecidableEq

/-- ChatInterface.handleSendMessage up to the creation of the SSE
connection: the two request guards, the appended user and assistant
placeholder messages, the initial model statuses, and the opened
connection which starts the meeting. -/
def handleSendMessage (st : ChatSendState) (convId : Option String)
    (selectedModels : List String) (content : String)
    (_attachments : List String) (nowIso : String) : ChatSendState :=
  match convId with
  | none => { st with error := some "请先选择或创建一个对话" }
  | some _ =>
      if selectedModels.length == 0 then
        { st with error := some "请至少选择一个模型" }
      else
        let initialStatuses := selectedModels.map
          (fun m => (m, ({ status := "等待中..." } : ModelStatus)))
        let userMessage : Message :=
          { role := "user", content := some content,
            models := some selectedModels, timestamp := nowIso }
        let assistantMessage : Message :=
          { role := "assistant", timestamp := nowIso, streaming := true,
            modelStatuses := some initialStatuses }
        { st with
          messages := st.messages ++ [userMessage, assistantMessage],
          modelStatuses := initialStatuses,
          isStreaming := true,
          error := none,
          connOpen := true }

/-- Component state of the plain ChatView variant. -/
structure ChatViewState where
  messages : List Message := []
  streaming : Bool := false
  error : Option String := none
  connOpen : Bool := false
deriving Repr, DecidableEq

/-- ChatView.handleSendMessage up to the creation of the SSE connection:
the same two request guards, then the appended user message and the
opened connection. -/
def chatViewHandleSendMessage (st : ChatViewState) (conversationId : Option String)
    (selectedModels : List String) (content : String) (nowIso : String) :
    ChatViewState :=
  match conversationId with
  | none => { st with error := some "请先选择或创建一个对话" }
  | some _ =>
      if selectedModels.length == 0 then
        { st with error := some "请至少选择一个模型" }
      else
        let userMessage : Message :=
          { role := "user", content := some content, timestamp := nowIso }
        { st with
          messages := st.messages ++ [userMessage],
          streaming := true,
          error := none,
          connOpen := true }

/-- Connection-related component state seen by the complete and error
listeners of the initial send path. -/
structure ChatStreamState where
  messages : List Message := []
  isStreaming : Bool := false
  error : Option String := none
  connOpen : Bool := false
deriving Repr, DecidableEq

/-- The complete listener of the initial send path: streaming stops, the
streaming marker is removed from every message, the connection is closed
and the stored handle cleared. -/
def completeListenerInitial (st : ChatStreamState) : ChatStreamState :=
  { st with
    isStreaming := false,
    messages := st.messages.map (fun m =>
      if m.streaming then { m with streaming := false } else m),
    connOpen := false }

/-- The error listener of the initial send path: an error message is
recorded, streaming stops, the connection is closed and the stored
handle cleared. -/
def errorListenerInitial (st : ChatStreamState) (msg : Option String) :
    ChatStreamState :=
  { st with
    error := some (msg.getD "连接失败，请重试"),
    isStreaming := false,
    connOpen := false }

/- ===================== ProgressDisplay ============================== -/

/-- One entry of a stage section (interface ProgressItem). -/
structure ProgressItem where
  modelName : String
  status : ModelStatus
  stage : String
  isCompleted : Bool
deriving Repr, DecidableEq

/-- ProgressDisplay helper isStatusCompleted. -/
def isStatusCompleted (s : ModelStatus) : Bool :=
  if s.error.isSome then true
  else if jsIncludes s.status "完成" || jsIncludes s.status "失败" then true
  else if s.status == "retrying" || jsIncludes s.status "中" then false
  else true

/-- The models recorded as stage-1 successful from the stage1Results
prop: every result without an error. -/
def stage1SuccessFromResults (rs : List Stage1Result) : List String :=
  (rs.filter (fun r => r.error.isNone)).map (fun r => r.model)

/-- The four stage groups built by ProgressDisplay. -/
structure StageGroups where
  stage1 : List ProgressItem := []
  stage2 : List ProgressItem := []
  stage3 : List ProgressItem := []
  stage4 : List ProgressItem := []
deriving Repr, DecidableEq

/-- Body of the Object.entries loop of ProgressDisplay for one status
entry: classify the key, drop a stage2 key whose model is not currently
in the success set, and grow the success set when a stage1 key carries a
completed non-error status. -/
def processStatusEntry (acc : List String × StageGroups)
    (e : String × ModelStatus) : List String × StageGroups :=
  let succ := acc.1
  let g := acc.2
  let key := e.1
  let status := e.2
  if key == "stage4" then
    (succ, { g with stage4 := g.stage4 ++
      [{ modelName := "排名计算", status := status, stage := "stage4",
         isCompleted := isStatusCompleted status }] })
  else if jsIncludes key "-stage3" then
    let name := jsReplaceFirst key "-stage3" ""
    (succ, { g with stage3 := g.stage3 ++
      [{ modelName := name, status := status, stage := "stage3",
         isCompleted := isStatusCompleted status }] })
  else if jsIncludes key "-stage2" then
    let name := jsReplaceFirst key "-stage2" ""
    if succ.contains name then
      (succ, { g with stage2 := g.stage2 ++
        [{ modelName := name, status := status, stage := "stage2",
           isCompleted := isStatusCompleted status }] })
    else (succ, g)
  else
    let name := key
    let succ2 :=
      if status.error.isNone
         && (status.status == "已完成" || jsIncludes status.status "完成")
      then succ ++ [name] else succ
    (succ2, { g with stage1 := g.stage1 ++
      [{ modelName := name, status := status, stage := "stage1",
         isCompleted := isStatusCompleted status }] })

/-- ProgressDisplay grouping pass: fold every status entry, starting from
the success set derived from stage1Results. -/
def buildStageGroups (stage1Results : List Stage1Result)
    (entries : List (String × ModelStatus)) : StageGroups :=
  (entries.foldl processStatusEntry
    (stage1SuccessFromResults stage1Results, {})).2

/-- Key classification of the final branch of the Object.entries loop: a
stage1 key is anything that is not the stage4 key and contains neither
the stage3 nor the stage2 suffix. -/
def isStage1Key (k : String) : Bool :=
  !(k == "stage4") && !(jsIncludes k "-stage3") && !(jsIncludes k "-stage2")

/-- Condition under which a stage1 status entry grows the success set
inside the loop: no error and a completed status. -/
def stage1KeySuccess (s : ModelStatus) : Bool :=
  s.error.isNone && (s.status == "已完成" || jsIncludes s.status "完成")

/-- Order-independent description of which status entries produce a
stage2 progress item when the success set stays fixed at succ: the entry
must classify as a stage2 key and its model name must be in succ. -/
def stage2KeySelector (succ : List String) (e : String × ModelStatus) :
    Option ProgressItem :=
  if !(e.1 == "stage4") && !(jsIncludes e.1 "-stage3") && jsIncludes e.1 "-stage2"
     && succ.contains (jsReplaceFirst e.1 "-stage2" "") then
    some { modelName := jsReplaceFirst e.1 "-stage2" "", status := e.2,
           stage := "stage2", isCompleted := isStatusCompleted e.2 }
  else none

/-- Display priority used by StageSection: errors first, then retrying,
then in-progress statuses containing the progress marker, then the
rest. -/
def itemPriority (i : ProgressItem) : Nat :=
  if i.status.error.isSome then 0
  else if i.status.status == "retrying" then 1
  else if jsIncludes i.status.status "中" then 2
  else 3

/-- StageSection sortedItems: the items of the section sorted stably by
priority (JavaScript Array.prototype.sort is stable). -/
def sortedItems (items : List ProgressItem) : List ProgressItem :=
  items.mergeSort (fun a b => itemPriority a ≤ itemPriority b)

/-- StageSection displayedItems: the first ten sorted items when the
section has more than ten items and the show-all toggle is off, otherwise
all sorted items. -/
def displayedItems (items : List ProgressItem) (showAll : Bool) :
    List ProgressItem :=
  if items.length > 10 && !showAll then (sortedItems items).take 10
  else sortedItems items

/- ============ Ranking Aggregator (spec-modelled, backend) =========== -/

/-- Modelled from the spec: the backend Stage Pipeline and Ranking
Aggregator are not part of the repository sources, so the ranking
computation of section 4.7 is embedded from its specification text.  The
relation orders candidates by average score descending, ties broken by
Stage 1 completion order ascending. -/
def rankBefore (a b : RankingEntry) : Prop :=
  b.avgScore < a.avgScore ∨ (a.avgScore = b.avgScore ∧ a.stage1Order ≤ b.stage1Order)

instance : DecidableRel rankBefore := fun a b => by
  unfold rankBefore; infer_instance

instance : IsTrans RankingEntry rankBefore := by
  constructor
  intro a b c hab hbc
  rcases hab with h1 | ⟨h1, h2⟩ <;> rcases hbc with h3 | ⟨h3, h4⟩
  · exact Or.inl (lt_trans h3 h1)
  · exact Or.inl (h3 ▸ h1)
  · exact Or.inl (h1 ▸ h3)
  · exact Or.inr ⟨h1.trans h3, le_trans h2 h4⟩

instance : IsTotal RankingEntry rankBefore := by
  constructor
  intro a b
  rcases lt_trichotomy a.avgScore b.avgScore with h | h | h
  · exact Or.inr (Or.inl h)
  · rcases Nat.le_total a.stage1Order b.stage1Order with h2 | h2
    · exact Or.inl (Or.inr ⟨h, h2⟩)
    · exact Or.inr (Or.inr ⟨h.symm, h2⟩)
  · exact Or.inl (Or.inl h)

/-- Modelled from the spec: assignment of 1-based ranks down an already
sorted candidate list. -/
def assignRanks : Nat → List RankingEntry → List RankingEntry
  | _, [] => []
  | n, e :: rest => { e with rank := n } :: assignRanks (n + 1) rest

/-- Modelled from the spec: sort the candidate entries by average score
descending with the completion-order tie-break and give them 1-based
ranks. -/
def rankEntries (cs : List RankingEntry) : List RankingEntry :=
  assignRanks 1 (cs.insertionSort rankBefore)

/-- Modelled from the spec: the Stage 4 outcome, the ranked entries plus
the chosen best answer, which is the Stage 1 response of the first ranked
entry. -/
def computeStage4 (cs : List RankingEntry) :
    List RankingEntry × Option String :=
  let ranked := rankEntries cs
  (ranked, (ranked.head?).map (fun e => e.response))

/- ===================== sample inputs ================================ -/

/-- Sample running meeting used by concrete instantiations. -/
def sampleMeeting : MeetingState :=
  { meetingId := "m", convId := "c", status := "stage2",
    eventSourceOpen := true }

/-- Sample status map iterating the stage1 key of model m before its
stage2 key. -/
def entriesStage1First : List (String × ModelStatus) :=
  [("m", { status := "已完成" }), ("m-stage2", { status := "评审中..." })]

/-- The same status map with the two keys iterated in the other order. -/
def entriesStage2First : List (String × ModelStatus) :=
  [("m-stage2", { status := "评审中..." }), ("m", { status := "已完成" })]

/-- Accumulated stage1 results right after the initial-path
stage1_complete listener ran on a single-model meeting. -/
def initialAfterComplete : List Stage1Result :=
  stage1CompleteInitial [{ model := "a", response := "x", timestamp := "t0" }] []

/-- A duplicate stage1_progress event for the same model, delivered after
the complete event. -/
def lateProgress : Stage1ProgressData :=
  { model := "a", response := some "x" }

/-- Reconnect-path closure state right after its stage1_complete
listener ran. -/
def reconnectAfterComplete : ReconnectStage1State :=
  stage1CompleteReconnect true true {}
    [{ model := "a", response := "x", timestamp := "t0" }]

/-- Reconnect-path stage2 closure state right after its stage2_complete
listener ran. -/
def reconnectStage2AfterComplete : ReconnectStage2State :=
  stage2CompleteReconnect true true {}
    [{ model := "a", raw_text := "s", timestamp := "t0" }]

/-- A duplicate stage2_progress event delivered after the stage2
complete event. -/
def lateProgress2 : Stage2ProgressData :=
  { model := "a", raw_text := "s" }

/-- Stored meeting record with a non-terminal status, for the restore
scenario. -/
def storedSample : List StoredMeeting :=
  [{ meetingId := "m1", convId := "c1", status := "stage2" }]

/-- Backend snapshot reporting that the stored meeting has meanwhile
completed. -/
def fetchSample : List (String × FetchedMeeting) :=
  [("m1", { status := "completed" })]

/-- Sample ranking candidates: distinct scores for A and B, C tying A
with a later completion order. -/
def candA : RankingEntry :=
  { label := "#1", model := "A", avgScore := 8, response := "ra", stage1Order := 0 }

/-- Second sample candidate with the highest average score. -/
def candB : RankingEntry :=
  { label := "#2", model := "B", avgScore := 9, response := "rb", stage1Order := 1 }

/-- Third sample candidate tying candA on score. -/
def candC : RankingEntry :=
  { label := "#3", model := "C", avgScore := 8, response := "rc", stage1Order := 2 }

/-- Sample old completed meeting, created at epoch zero. -/
def sampleOldDone : MeetingState :=
  { meetingId := "old", convId := "c", status := "completed", createdAt := 0 }

/-- Sample old but still running meeting, created at epoch zero. -/
def sampleOldActive : MeetingState :=
  { meetingId := "run", convId := "c", status := "stage3", createdAt := 0 }

/-- Sample user message. -/
def sampleUser : Message :=
  { role := "user", content := some "hi", models := some ["a"],
    timestamp := "t0" }

/-- Sample streaming assistant placeholder message. -/
def sampleAssistant : Message :=
  { role := "assistant", streaming := true, timestamp := "t0" }

/-- Sample update carrying fresh stage1 results. -/
def sampleUpdates : MsgUpdates :=
  { stage1 := some [{ model := "a", response := "x", timestamp := "t1" }] }

/-- Eleven progress items, enough to trigger the collapse branch of
StageSection. -/
def sampleItems11 : List ProgressItem :=
  (List.range 11).map (fun i =>
    { modelName := toString i,
      status := { status := if i % 2 == 0 then "已完成" else "分析中..." },
      stage := "stage1",
      isCompleted := i % 2 == 0 })

/- ===================== theorems ===================================== -/

/-- C7: starting a meeting with an empty participant model list fails
with the invalid-request error message and nothing else happens: no
message is appended, no SSE connection is opened (hence no meeting is
started) and streaming does not begin, in both the ChatInterface send
handler and the ChatView send handler. -/
theorem emptyModels_send_rejected (st : ChatSendState) (cid : String)
    (models : List String) (content : String) (atts : List String)
    (now : String) (stv : ChatViewState) (cid2 content2 now2 : String)
    (h : models = []) :
    handleSendMessage st (some cid) models content atts now
      = { st with error := some "请至少选择一个模型" }
    ∧ chatViewHandleSendMessage stv (some cid2) models content2 now2
      = { stv with error := some "请至少选择一个模型" } := by
  subst h
  exact ⟨rfl, rfl⟩

/-- Witness for emptyModels_send_rejected at a concrete empty model
list. -/
theorem emptyModels_send_rejected_witness :
    handleSendMessage {} (some "c") [] "hi" [] "t"
      = { ({} : ChatSendState) with error := some "请至少选择一个模型" }
    ∧ chatViewHandleSendMessage {} (some "c") [] "hi" "t"
      = { ({} : ChatViewState) with error := some "请至少选择一个模型" } :=
  emptyModels_send_rejected {} "c" [] "hi" [] "t" {} "c" "hi" "t" rfl

/-- C1: divergence between the two consumer paths.  On the initial send
path a stage1_progress event delivered after the stage1_complete event
still changes the accumulated stage results (the listener has no
completion guard and upserts the event with a fresh timestamp), whereas
the reconnect path ignores the same late event for stage1 and stage2
through its completion flags. -/
theorem lateProgress_initial_path_reapplied :
    stage1ProgressInitial "t1" initialAfterComplete lateProgress
      ≠ initialAfterComplete
    ∧ stage1ProgressReconnect true true "t1" reconnectAfterComplete lateProgress
      = reconnectAfterComplete
    ∧ stage2ProgressReconnect true true "t1" reconnectStage2AfterComplete
        lateProgress2
      = reconnectStage2AfterComplete := by
  exact ⟨by decide, by decide, by decide⟩

/-- C4 counterexample: after a server-sent error event is dispatched to
the MeetingManager subscription, the final status is connection_error,
not failed: the subscription registers a second, connection-level error
listener that runs after the typed one and overwrites the status. -/
theorem serverError_final_status_not_failed :
    (dispatchServerError sampleMeeting (some "boom")).status
      = "connection_error"
    ∧ (dispatchServerError sampleMeeting (some "boom")).status ≠ "failed" := by
  exact ⟨by decide, by decide⟩

/-- C4 amended: a complete event marks the meeting completed and an
error event is marked failed by the typed listener; in both cases the
connection is closed and the stored handle cleared, after which no live
event is applied any more.  The full dispatch of a server-sent error
event additionally runs the connection-level listener, which leaves the
final status connection_error while the connection stays closed.  The
ChatInterface complete and error listeners likewise close the connection
and clear the stored handle. -/
theorem terminal_event_closes_subscription (st : MeetingState)
    (msg : Option String) (e : MeetingEvent) (cst : ChatStreamState)
    (m2 : Option String) :
    ((handleMeetingEvent st .complete).status = "completed"
      ∧ (handleMeetingEvent st .complete).eventSourceOpen = false
      ∧ deliverLive (handleMeetingEvent st .complete) e
          = handleMeetingEvent st .complete)
    ∧ ((handleMeetingEvent st (.errorEvent msg)).status = "failed"
      ∧ (handleMeetingEvent st (.errorEvent msg)).eventSourceOpen = false
      ∧ deliverLive (handleMeetingEvent st (.errorEvent msg)) e
          = handleMeetingEvent st (.errorEvent msg))
    ∧ ((dispatchServerError st msg).status = "connection_error"
      ∧ (dispatchServerError st msg).eventSourceOpen = false
      ∧ deliverLive (dispatchServerError st msg) e = dispatchServerError st msg)
    ∧ (completeListenerInitial cst).connOpen = false
    ∧ (errorListenerInitial cst m2).connOpen = false := by
  exact ⟨⟨rfl, rfl, rfl⟩, ⟨rfl, rfl, rfl⟩, ⟨rfl, rfl, rfl⟩, rfl, rfl⟩

/-- C10: every displayed stage-section list is sorted by the display
priority (error items first, then retrying, then in-progress statuses,
then the rest), the sorted order is a permutation of the items, and when
a section holds more than ten items with the show-all toggle off exactly
the first ten items of that sorted order are displayed. -/
theorem stageSection_display_spec (items : List ProgressItem) (showAll : Bool) :
    (displayedItems items showAll).Pairwise
      (fun a b => itemPriority a ≤ itemPriority b)
    ∧ (items.length > 10 → showAll = false →
        displayedItems items showAll = (sortedItems items).take 10)
    ∧ (sortedItems items).Perm items := by
  have htrans : ∀ a b c : ProgressItem,
      (decide (itemPriority a ≤ itemPriority b)) = true →
      (decide (itemPriority b ≤ itemPriority c)) = true →
      (decide (itemPriority a ≤ itemPriority c)) = true := by
    intro a b c hab hbc
    simp only [decide_eq_true_eq] at *
    omega
  have htotal : ∀ a b : ProgressItem,
      ((decide (itemPriority a ≤ itemPriority b))
        || (decide (itemPriority b ≤ itemPriority a))) = true := by
    intro a b
    simp only [Bool.or_eq_true, decide_eq_true_eq]
    omega
  have hsorted : (sortedItems items).Pairwise
      (fun a b => itemPriority a ≤ itemPriority b) := by
    have h := @List.sorted_mergeSort ProgressItem
      (fun a b : ProgressItem => decide (itemPriority a ≤ itemPriority b))
      htrans htotal items
    exact h.imp (fun hab => by simpa using hab)
  refine ⟨?_, ?_, List.mergeSort_perm items _⟩
  · unfold displayedItems
    by_cases h : (items.length > 10 && !showAll) = true
    · rw [if_pos h]
      exact List.Pairwise.sublist (List.take_sublist 10 _) hsorted
    · rw [if_neg h]
      exact hsorted
  · intro h1 h2
    subst h2
    unfold displayedItems
    rw [if_pos]
    simpa using h1

/-- Witness for stageSection_display_spec on an eleven-item section with
the show-all toggle off. -/
theorem stageSection_display_spec_witness :
    sampleItems11.length > 10
    ∧ displayedItems sampleItems11 false = (sortedItems sampleItems11).take 10 :=
  ⟨by decide, (stageSection_display_spec sampleItems11 false).2.1 (by decide) rfl⟩

/-- Lookup after a pointwise update of the same key applies the update
to the looked-up state. -/
theorem lookupMeeting_updateMeeting_self (ms : MeetingMap) (id : String)
    (f : MeetingState → MeetingState) :
    lookupMeeting (updateMeeting ms id f) id = (lookupMeeting ms id).map f := by
  induction ms with
  | nil => rfl
  | cons p rest ih =>
      unfold lookupMeeting updateMeeting at *
      by_cases h : (p.1 == id) = true
      · rw [List.map_cons, if_pos h,
          @List.find?_cons_of_pos _ (fun q => q.1 == id) (p.1, f p.2) _ h,
          @List.find?_cons_of_pos _ (fun q => q.1 == id) p _ h]
        rfl
      · rw [List.map_cons, if_neg h,
          @List.find?_cons_of_neg _ (fun q => q.1 == id) p _ h,
          @List.find?_cons_of_neg _ (fun q => q.1 == id) p _ h]
        exact ih

/-- Updating the same key twice composes the updates. -/
theorem updateMeeting_updateMeeting (ms : MeetingMap) (id : String)
    (f g : MeetingState → MeetingState) :
    updateMeeting (updateMeeting ms id f) id g
      = updateMeeting ms id (fun s => g (f s)) := by
  unfold updateMeeting
  rw [List.map_map]
  apply List.map_congr_left
  intro q _
  by_cases h : (q.1 == id) = true
  · simp [Function.comp, h]
  · simp [Function.comp, h]

/-- C6: cancelling a known meeting closes and clears its event
subscription and sets the status to cancelled, whatever the previous
status was (including an already terminal one); cancelling an unknown
meeting id leaves the map unchanged; and cancellation is idempotent. -/
theorem cancelMeeting_spec (ms : MeetingMap) (id : String) :
    (lookupMeeting ms id = none → cancelMeeting ms id = ms)
    ∧ (∀ st, lookupMeeting ms id = some st →
        lookupMeeting (cancelMeeting ms id) id
          = some { st with eventSourceOpen := false, status := "cancelled" })
    ∧ cancelMeeting (cancelMeeting ms id) id = cancelMeeting ms id := by
  refine ⟨?_, ?_, ?_⟩
  · intro h
    unfold cancelMeeting
    rw [h]
  · intro st h
    unfold cancelMeeting
    rw [h]
    rw [lookupMeeting_updateMeeting_self, h]
    rfl
  · cases h : lookupMeeting ms id with
    | none =>
        have h1 : cancelMeeting ms id = ms := by unfold cancelMeeting; rw [h]
        rw [h1, h1]
    | some st =>
        have h1 : cancelMeeting ms id = updateMeeting ms id cancelUpdate := by
          unfold cancelMeeting; rw [h]
        have h2 : lookupMeeting (updateMeeting ms id cancelUpdate) id
            = some (cancelUpdate st) := by
          rw [lookupMeeting_updateMeeting_self, h]
          rfl
        have h3 : cancelMeeting (updateMeeting ms id cancelUpdate) id
            = updateMeeting (updateMeeting ms id cancelUpdate) id cancelUpdate := by
          unfold cancelMeeting; rw [h2]
        rw [h1, h3, updateMeeting_updateMeeting]
        rfl

/-- Witness for cancelMeeting_spec: cancelling the sample meeting yields
a cancelled, unsubscribed state. -/
theorem cancelMeeting_spec_witness :
    lookupMeeting (cancelMeeting [("m", sampleMeeting)] "m") "m"
      = some { sampleMeeting with eventSourceOpen := false,
                                  status := "cancelled" } :=
  (cancelMeeting_spec [("m", sampleMeeting)] "m").2.1 sampleMeeting (by decide)

/-- A none result of the backwards search means no message of the list
is a streaming assistant message. -/
theorem findLastStreamingAssistant_eq_none (msgs : List Message)
    (h : findLastStreamingAssistant msgs = none) :
    ∀ j (hj : j < msgs.length),
      ¬(((msgs.get ⟨j, hj⟩).role == "assistant")
        && (msgs.get ⟨j, hj⟩).streaming) = true := by
  induction msgs with
  | nil => intro j hj; simp at hj
  | cons m rest ih =>
      intro j hj
      unfold findLastStreamingAssistant at h
      cases hrest : findLastStreamingAssistant rest with
      | some k => rw [hrest] at h; cases h
      | none =>
          rw [hrest] at h
          cases j with
          | zero =>
              show ¬((m.role == "assistant") && m.streaming) = true
              intro hc
              rw [if_pos hc] at h
              cases h
          | succ j2 =>
              rw [List.get_cons_succ]
              exact ih hrest j2 (by simpa using hj)

/-- A some result of the backwards search points at a streaming
assistant message that no later message matches. -/
theorem findLastStreamingAssistant_eq_some (msgs : List Message) (i : Nat)
    (h : findLastStreamingAssistant msgs = some i) :
    ∃ hi : i < msgs.length,
      ((msgs.get ⟨i, hi⟩).role == "assistant"
        && (msgs.get ⟨i, hi⟩).streaming) = true
      ∧ ∀ j (hj : j < msgs.length), i < j →
          ¬(((msgs.get ⟨j, hj⟩).role == "assistant")
            && (msgs.get ⟨j, hj⟩).streaming) = true := by
  induction msgs generalizing i with
  | nil => cases h
  | cons m rest ih =>
      unfold findLastStreamingAssistant at h
      cases hrest : findLastStreamingAssistant rest with
      | some k =>
          rw [hrest] at h
          injection h with h
          subst h
          obtain ⟨hk, hk1, hk2⟩ := ih k hrest
          refine ⟨by simpa using Nat.succ_lt_succ hk, ?_, ?_⟩
          · rw [List.get_cons_succ]
            exact hk1
          · intro j hj hlt
            cases j with
            | zero => omega
            | succ j2 =>
                rw [List.get_cons_succ]
                exact hk2 j2 (by simpa using hj) (by omega)
      | none =>
          rw [hrest] at h
          by_cases hc : ((m.role == "assistant") && m.streaming) = true
          · rw [if_pos hc] at h
            injection h with h
            subst h
            refine ⟨by simp, ?_, ?_⟩
            · exact hc
            · intro j hj hlt
              cases j with
              | zero => omega
              | succ j2 =>
                  rw [List.get_cons_succ]
                  exact findLastStreamingAssistant_eq_none rest hrest j2
                    (by simpa using hj)
          · rw [if_neg hc] at h
            cases h

/-- C9: updateAssistantMessage modifies at most one element of the
message list: every index either keeps its previous message, or it is
the last streaming assistant message (no later message is a streaming
assistant message) and it receives exactly the merged updates; in
particular every user message and every non-streaming assistant message
is left unchanged. -/
theorem updateAssistantMessage_touches_only_last (cur mc : Option String)
    (u : MsgUpdates) (msgs : List Message) (i : Nat) :
    (updateAssistantMessage cur mc u msgs)[i]? = msgs[i]?
    ∨ (∃ hi : i < msgs.length,
        (msgs.get ⟨i, hi⟩).role = "assistant"
        ∧ (msgs.get ⟨i, hi⟩).streaming = true
        ∧ (∀ j (hj : j < msgs.length), i < j →
            ¬((msgs.get ⟨j, hj⟩).role = "assistant"
              ∧ (msgs.get ⟨j, hj⟩).streaming = true))
        ∧ (updateAssistantMessage cur mc u msgs)[i]?
            = some (applyUpdates (msgs.get ⟨i, hi⟩) u)) := by
  by_cases hg : (mc.isSome && mc != cur) = true
  · have hres : updateAssistantMessage cur mc u msgs = msgs := by
      unfold updateAssistantMessage
      rw [if_pos hg]
    rw [hres]
    exact Or.inl rfl
  · cases hf : findLastStreamingAssistant msgs with
    | none =>
        have hres : updateAssistantMessage cur mc u msgs = msgs := by
          unfold updateAssistantMessage
          rw [if_neg hg, hf]
        rw [hres]
        exact Or.inl rfl
    | some k =>
        obtain ⟨hk, hk1, hk2⟩ := findLastStreamingAssistant_eq_some msgs k hf
        have hgetk : msgs[k]? = some (msgs.get ⟨k, hk⟩) := by
          rw [List.getElem?_eq_getElem hk, List.get_eq_getElem]
        have hres : updateAssistantMessage cur mc u msgs
            = msgs.set k (applyUpdates (msgs.get ⟨k, hk⟩) u) := by
          unfold updateAssistantMessage
          rw [if_neg hg, hf]
          show (match msgs[k]? with
            | none => msgs
            | some m => msgs.set k (applyUpdates m u)) = _
          rw [hgetk]
        rw [hres]
        by_cases hik : i = k
        · subst hik
          right
          have hand := (Bool.and_eq_true _ _).mp hk1
          have hrole : (msgs.get ⟨i, hk⟩).role = "assistant" := eq_of_beq hand.1
          have hstr : (msgs.get ⟨i, hk⟩).streaming = true := hand.2
          refine ⟨hk, hrole, hstr, ?_, ?_⟩
          · intro j hj hlt hcontra
            exact hk2 j hj hlt
              ((Bool.and_eq_true _ _).mpr ⟨beq_iff_eq.mpr hcontra.1, hcontra.2⟩)
          · rw [List.getElem?_set]
            simp [hk]
        · left
          rw [List.getElem?_set]
          rw [if_neg (fun h => hik h.symm)]

/-- Witness for updateAssistantMessage_touches_only_last: the user
message at index zero is untouched by a stage1 update. -/
theorem updateAssistantMessage_touches_witness :
    (updateAssistantMessage (some "c") none sampleUpdates
      [sampleUser, sampleAssistant])[0]? = some sampleUser := by
  have h := updateAssistantMessage_touches_only_last (some "c") none
    sampleUpdates [sampleUser, sampleAssistant] 0
  rcases h with h | ⟨hi, hrole, hstr, hafter, hset⟩
  · simpa using h
  · exact absurd (show sampleUser.role = "assistant" from hrole) (by decide)

/-- In a map whose keys are distinct, a key determines its state. -/
theorem nodupKeys_state_unique (ms : MeetingMap)
    (hnd : (ms.map Prod.fst).Nodup) (id : String) (st st2 : MeetingState)
    (h1 : (id, st) ∈ ms) (h2 : (id, st2) ∈ ms) : st = st2 := by
  induction ms with
  | nil => cases h1
  | cons p rest ih =>
      obtain ⟨k, v⟩ := p
      rw [List.map_cons, List.nodup_cons] at hnd
      rcases List.mem_cons.mp h1 with he1 | ht1 <;>
        rcases List.mem_cons.mp h2 with he2 | ht2
      · injection he1 with hk1 hv1
        injection he2 with hk2 hv2
        rw [hv1, hv2]
      · injection he1 with hk1 hv1
        exact absurd (List.mem_map.mpr ⟨(id, st2), ht2, rfl⟩)
          (by rw [hk1]; exact hnd.1)
      · injection he2 with hk2 hv2
        exact absurd (List.mem_map.mpr ⟨(id, st), ht1, rfl⟩)
          (by rw [hk2]; exact hnd.1)
      · exact ih hnd.2 ht1 ht2

/-- Membership in the id collection pass is the terminal-and-old
condition, stated for an entry of a map with distinct keys. -/
theorem mem_cleanupRemovedIds (ms : MeetingMap) (now maxAge : Int)
    (hnd : (ms.map Prod.fst).Nodup) (id : String) (st : MeetingState)
    (hmem : (id, st) ∈ ms) :
    id ∈ cleanupRemovedIds ms now maxAge
      ↔ ((st.status = "completed" ∨ st.status = "failed"
          ∨ st.status = "cancelled") ∧ now - st.createdAt > maxAge) := by
  unfold cleanupRemovedIds
  constructor
  · intro h
    obtain ⟨p, hp, hpid⟩ := List.mem_map.mp h
    obtain ⟨hpmem, hpcond⟩ := List.mem_filter.mp hp
    have hpst : p.2 = st := by
      have : p = (id, p.2) := by rw [← hpid]
      rw [this] at hpmem
      exact nodupKeys_state_unique ms hnd id p.2 st hpmem hmem
    rw [hpst] at hpcond
    simp only [Bool.and_eq_true, Bool.or_eq_true, decide_eq_true_eq,
      beq_iff_eq] at hpcond
    tauto
  · intro h
    refine List.mem_map.mpr ⟨(id, st), List.mem_filter.mpr ⟨hmem, ?_⟩, rfl⟩
    simp only [Bool.and_eq_true, Bool.or_eq_true, decide_eq_true_eq,
      beq_iff_eq]
    tauto

/-- C8: cleanupCompletedMeetings never removes a meeting whose status is
non-terminal, whatever its age; an entry of the map survives the cleanup
exactly when it is not both terminal and older than maxAge; and a
listener entry survives exactly when its meeting id was not removed. -/
theorem cleanup_preserves_active (ms : MeetingMap) (listeners : List String)
    (now maxAge : Int) (hnd : (ms.map Prod.fst).Nodup) (id : String)
    (st : MeetingState) (hmem : (id, st) ∈ ms) :
    ((id, st) ∈ (cleanupCompletedMeetings ms listeners now maxAge).1
      ↔ ¬((st.status = "completed" ∨ st.status = "failed"
           ∨ st.status = "cancelled") ∧ now - st.createdAt > maxAge))
    ∧ (¬(st.status = "completed" ∨ st.status = "failed"
         ∨ st.status = "cancelled") →
        (id, st) ∈ (cleanupCompletedMeetings ms listeners now maxAge).1)
    ∧ (∀ l, l ∈ (cleanupCompletedMeetings ms listeners now maxAge).2
        ↔ (l ∈ listeners ∧ l ∉ cleanupRemovedIds ms now maxAge)) := by
  have hchar := mem_cleanupRemovedIds ms now maxAge hnd id st hmem
  refine ⟨?_, ?_, ?_⟩
  · unfold cleanupCompletedMeetings
    constructor
    · intro h hc
      obtain ⟨-, hcond⟩ := List.mem_filter.mp h
      rw [Bool.not_eq_true', Bool.eq_false_iff] at hcond
      exact hcond (by
        have : id ∈ cleanupRemovedIds ms now maxAge := hchar.mpr hc
        simpa using this)
    · intro h
      refine List.mem_filter.mpr ⟨hmem, ?_⟩
      have : id ∉ cleanupRemovedIds ms now maxAge := fun hc => h (hchar.mp hc)
      simpa using this
  · intro h
    unfold cleanupCompletedMeetings
    refine List.mem_filter.mpr ⟨hmem, ?_⟩
    have : id ∉ cleanupRemovedIds ms now maxAge := by
      intro hc
      exact h (hchar.mp hc).1
    simpa using this
  · intro l
    unfold cleanupCompletedMeetings
    constructor
    · intro h
      obtain ⟨hl, hcond⟩ := List.mem_filter.mp h
      refine ⟨hl, ?_⟩
      intro hc
      rw [Bool.not_eq_true', Bool.eq_false_iff] at hcond
      exact hcond (by simpa using hc)
    · intro ⟨hl, hc⟩
      refine List.mem_filter.mpr ⟨hl, ?_⟩
      simpa using hc

/-- Witness for cleanup_preserves_active: an old running meeting stays
in the map after a cleanup that removes an equally old completed one. -/
theorem cleanup_preserves_active_witness :
    ("run", sampleOldActive)
      ∈ (cleanupCompletedMeetings [("old", sampleOldDone), ("run", sampleOldActive)]
          ["old", "run"] 100000000 0).1 :=
  (cleanup_preserves_active [("old", sampleOldDone), ("run", sampleOldActive)]
    ["old", "run"] 100000000 0 (by decide) "run" sampleOldActive
    (by decide)).2.1 (by decide)

/-- Length is preserved by rank assignment. -/
theorem assignRanks_length (n : Nat) (l : List RankingEntry) :
    (assignRanks n l).length = l.length := by
  induction l generalizing n with
  | nil => rfl
  | cons e rest ih => simp [assignRanks, ih]

/-- Rank assignment only overwrites the rank field, with the position
offset by the starting rank. -/
theorem assignRanks_get (n : Nat) (l : List RankingEntry) (i : Nat)
    (hi : i < (assignRanks n l).length) (hi2 : i < l.length) :
    (assignRanks n l).get ⟨i, hi⟩ = { l.get ⟨i, hi2⟩ with rank := n + i } := by
  induction l generalizing n i with
  | nil => simp at hi2
  | cons e rest ih =>
      cases i with
      | zero => simp [assignRanks]
      | succ k =>
          have hk : k < (assignRanks (n + 1) rest).length := by
            rw [assignRanks_length]
            simpa using hi2
          have hk2 : k < rest.length := by simpa using hi2
          show (assignRanks (n + 1) rest).get ⟨k, hk⟩ = _
          rw [ih (n + 1) k hk hk2, List.get_cons_succ]
          have harith : n + 1 + k = n + (k + 1) := by omega
          rw [harith]

/-- The sorted candidate list is pairwise ordered by the ranking
relation. -/
theorem insertionSort_rankBefore_sorted (cs : List RankingEntry) :
    List.Pairwise rankBefore (cs.insertionSort rankBefore) :=
  List.sorted_insertionSort rankBefore cs

/-- C2: the entries produced by the spec-modelled Ranking Aggregator
carry 1-based ranks following the sort position; any earlier entry
either has a strictly higher average score or ties with a completion
order no later than the later entry; among entries with equal average
score the one with the earlier Stage 1 completion order has the lower
rank; and the chosen best answer is the Stage 1 response of the rank-1
entry. -/
theorem rankings_ordered_spec (cs : List RankingEntry) :
    (∀ i (hi : i < (rankEntries cs).length),
        ((rankEntries cs).get ⟨i, hi⟩).rank = i + 1)
    ∧ (∀ i j (hi : i < (rankEntries cs).length)
          (hj : j < (rankEntries cs).length), i < j →
        ((rankEntries cs).get ⟨j, hj⟩).avgScore
            < ((rankEntries cs).get ⟨i, hi⟩).avgScore
        ∨ (((rankEntries cs).get ⟨i, hi⟩).avgScore
              = ((rankEntries cs).get ⟨j, hj⟩).avgScore
           ∧ ((rankEntries cs).get ⟨i, hi⟩).stage1Order
              ≤ ((rankEntries cs).get ⟨j, hj⟩).stage1Order))
    ∧ (∀ e1 e2, e1 ∈ rankEntries cs → e2 ∈ rankEntries cs →
        e1.avgScore = e2.avgScore → e1.stage1Order < e2.stage1Order →
        e1.rank < e2.rank)
    ∧ (cs ≠ [] → ∃ e, (rankEntries cs).head? = some e ∧ e.rank = 1
        ∧ (computeStage4 cs).2 = some e.response) := by
  have hlen : (rankEntries cs).length = (cs.insertionSort rankBefore).length :=
    assignRanks_length 1 _
  have hget : ∀ i (hi : i < (rankEntries cs).length)
      (hi2 : i < (cs.insertionSort rankBefore).length),
      (rankEntries cs).get ⟨i, hi⟩
        = { (cs.insertionSort rankBefore).get ⟨i, hi2⟩ with rank := 1 + i } :=
    fun i hi hi2 => assignRanks_get 1 _ i hi hi2
  have hsorted := insertionSort_rankBefore_sorted cs
  have hpair := List.pairwise_iff_get.mp hsorted
  have hrank : ∀ i (hi : i < (rankEntries cs).length),
      ((rankEntries cs).get ⟨i, hi⟩).rank = i + 1 := by
    intro i hi
    rw [hget i hi (hlen ▸ hi)]
    simp [Nat.add_comm]
  have hord : ∀ i j (hi : i < (rankEntries cs).length)
      (hj : j < (rankEntries cs).length), i < j →
      ((rankEntries cs).get ⟨j, hj⟩).avgScore
          < ((rankEntries cs).get ⟨i, hi⟩).avgScore
      ∨ (((rankEntries cs).get ⟨i, hi⟩).avgScore
            = ((rankEntries cs).get ⟨j, hj⟩).avgScore
         ∧ ((rankEntries cs).get ⟨i, hi⟩).stage1Order
            ≤ ((rankEntries cs).get ⟨j, hj⟩).stage1Order) := by
    intro i j hi hj hij
    have hi2 : i < (cs.insertionSort rankBefore).length := hlen ▸ hi
    have hj2 : j < (cs.insertionSort rankBefore).length := hlen ▸ hj
    have hr := hpair ⟨i, hi2⟩ ⟨j, hj2⟩ hij
    rw [hget i hi hi2, hget j hj hj2]
    exact hr
  refine ⟨hrank, hord, ?_, ?_⟩
  · intro e1 e2 h1 h2 heq hord12
    obtain ⟨⟨i, hi⟩, hgi⟩ := List.mem_iff_get.mp h1
    obtain ⟨⟨j, hj⟩, hgj⟩ := List.mem_iff_get.mp h2
    rcases Nat.lt_trichotomy i j with hij | hij | hij
    · rw [← hgi, ← hgj, hrank i hi, hrank j hj]
      omega
    · exfalso
      subst hij
      have he12 : e1 = e2 := hgi.symm.trans hgj
      rw [he12] at hord12
      exact lt_irrefl _ hord12
    · exfalso
      have := hord j i hj hi hij
      rw [hgi, hgj] at this
      rcases this with hlt | ⟨hq, hle⟩
      · rw [heq] at hlt
        exact lt_irrefl _ hlt
      · omega
  · intro hne
    have hlen2 : 0 < (rankEntries cs).length := by
      rw [hlen, List.length_insertionSort]
      exact List.length_pos.mpr hne
    refine ⟨(rankEntries cs).get ⟨0, hlen2⟩, ?_, hrank 0 hlen2, ?_⟩
    · rw [List.head?_eq_getElem?, List.getElem?_eq_getElem hlen2,
        List.get_eq_getElem]
    · show ((rankEntries cs).head?).map (fun e => e.response) = _
      rw [List.head?_eq_getElem?, List.getElem?_eq_getElem hlen2,
        List.get_eq_getElem]
      rfl

/-- Witness for rankings_ordered_spec: with three concrete candidates
the best answer is the response of the rank-1 entry. -/
theorem rankings_ordered_spec_witness :
    ∃ e, (rankEntries [candA, candB, candC]).head? = some e ∧ e.rank = 1
      ∧ (computeStage4 [candA, candB, candC]).2 = some e.response :=
  (rankings_ordered_spec [candA, candB, candC]).2.2.2 (by decide)

/-- C3 counterexample: with an empty stage1Results list, the key
m-stage2 is rendered when the stage1 status key of m is iterated first
(although m has no Stage 1 result at all), and it is not rendered when
the same two keys are iterated in the other order: rendering is
order-dependent and not equivalent to having a non-error Stage 1
result. -/
theorem stage2_render_order_dependent :
    (buildStageGroups [] entriesStage1First).stage2.map (fun i => i.modelName)
      = ["m"]
    ∧ (buildStageGroups [] entriesStage2First).stage2 = []
    ∧ stage1SuccessFromResults [] = []
    ∧ entriesStage2First.Perm entriesStage1First := by
  refine ⟨by decide, by decide, by decide, ?_⟩
  unfold entriesStage1First entriesStage2First
  exact List.Perm.swap _ _ _

/-- Invariant form of the grouping fold: when the in-loop additions to
the success set never leave the base set computed from stage1Results,
the stage2 group is an order-independent selection over the entries. -/
theorem processEntries_stage2 (entries : List (String × ModelStatus))
    (base : List String) :
    ∀ (succ : List String) (g : StageGroups),
    (∀ x, x ∈ succ ↔ x ∈ base) →
    (∀ e ∈ entries, isStage1Key e.1 = true → stage1KeySuccess e.2 = true →
        e.1 ∈ base) →
    (entries.foldl processStatusEntry (succ, g)).2.stage2
      = g.stage2 ++ entries.filterMap (stage2KeySelector base) := by
  induction entries with
  | nil => intro succ g hsucc hcomp; simp
  | cons e rest ih =>
      intro succ g hsucc hcomp
      obtain ⟨key, status⟩ := e
      rw [List.foldl_cons]
      have hcomp2 : ∀ e ∈ rest, isStage1Key e.1 = true →
          stage1KeySuccess e.2 = true → e.1 ∈ base :=
        fun e he => hcomp e (List.mem_cons_of_mem _ he)
      by_cases h4 : (key == "stage4") = true
      · have hstep : processStatusEntry (succ, g) (key, status)
            = (succ, { g with stage4 := g.stage4 ++
                [{ modelName := "排名计算", status := status, stage := "stage4",
                   isCompleted := isStatusCompleted status }] }) := by
          simp [processStatusEntry, h4]
        have hsel : stage2KeySelector base (key, status) = none := by
          simp [stage2KeySelector, h4]
        rw [hstep, List.filterMap_cons, hsel, ih _ _ hsucc hcomp2]
      · by_cases h3 : jsIncludes key "-stage3" = true
        · have hstep : processStatusEntry (succ, g) (key, status)
              = (succ, { g with stage3 := g.stage3 ++
                  [{ modelName := jsReplaceFirst key "-stage3" "",
                     status := status, stage := "stage3",
                     isCompleted := isStatusCompleted status }] }) := by
            simp [processStatusEntry, h4, h3]
          have hsel : stage2KeySelector base (key, status) = none := by
            simp [stage2KeySelector, h4, h3]
          rw [hstep, List.filterMap_cons, hsel, ih _ _ hsucc hcomp2]
        · by_cases h2 : jsIncludes key "-stage2" = true
          · by_cases hc : (jsReplaceFirst key "-stage2" "") ∈ succ
            · have hcb : (jsReplaceFirst key "-stage2" "") ∈ base :=
                (hsucc _).mp hc
              have hstep : processStatusEntry (succ, g) (key, status)
                  = (succ, { g with stage2 := g.stage2 ++
                      [{ modelName := jsReplaceFirst key "-stage2" "",
                         status := status, stage := "stage2",
                         isCompleted := isStatusCompleted status }] }) := by
                simp [processStatusEntry, h4, h3, h2, hc]
              have hsel : stage2KeySelector base (key, status)
                  = some { modelName := jsReplaceFirst key "-stage2" "",
                           status := status, stage := "stage2",
                           isCompleted := isStatusCompleted status } := by
                simp [stage2KeySelector, h4, h3, h2, hcb]
              rw [hstep, List.filterMap_cons, hsel, ih _ _ hsucc hcomp2]
              simp
            · have hcb : (jsReplaceFirst key "-stage2" "") ∉ base :=
                fun hb => hc ((hsucc _).mpr hb)
              have hstep : processStatusEntry (succ, g) (key, status)
                  = (succ, g) := by
                simp [processStatusEntry, h4, h3, h2, hc]
              have hsel : stage2KeySelector base (key, status) = none := by
                simp [stage2KeySelector, h4, h3, h2, hcb]
              rw [hstep, List.filterMap_cons, hsel, ih _ _ hsucc hcomp2]
          · have hsel : stage2KeySelector base (key, status) = none := by
              simp [stage2KeySelector, h4, h3, h2]
            by_cases hgrow : (status.error.isNone
                && (status.status == "已完成" || jsIncludes status.status "完成")) = true
            · have hstep : processStatusEntry (succ, g) (key, status)
                  = (succ ++ [key], { g with stage1 := g.stage1 ++
                      [{ modelName := key, status := status, stage := "stage1",
                         isCompleted := isStatusCompleted status }] }) := by
                simp [processStatusEntry, h4, h3, h2, hgrow]
              have hkey : key ∈ base := by
                apply hcomp (key, status) (List.mem_cons_self _ _)
                · unfold isStage1Key
                  rw [Bool.and_eq_true, Bool.and_eq_true]
                  refine ⟨⟨?_, ?_⟩, ?_⟩ <;> simp [h4, h3, h2]
                · exact hgrow
              have hsucc2 : ∀ x, x ∈ succ ++ [key] ↔ x ∈ base := by
                intro x
                rw [List.mem_append, List.mem_singleton]
                constructor
                · rintro (hx | rfl)
                  · exact (hsucc x).mp hx
                  · exact hkey
                · intro hx
                  exact Or.inl ((hsucc x).mpr hx)
              rw [hstep, List.filterMap_cons, hsel, ih _ _ hsucc2 hcomp2]
            · have hstep : processStatusEntry (succ, g) (key, status)
                  = (succ, { g with stage1 := g.stage1 ++
                      [{ modelName := key, status := status, stage := "stage1",
                         isCompleted := isStatusCompleted status }] }) := by
                simp [processStatusEntry, h4, h3, h2, hgrow]
              rw [hstep, List.filterMap_cons, hsel, ih _ _ hsucc hcomp2]

/-- C3 amended: whenever every model whose status map entry records a
completed non-error Stage 1 status also carries a non-error result in
stage1Results, the rendered stage2 entries are exactly the status
entries with a stage2 key whose model has a non-error Stage 1 result,
independently of the iteration order; without that side condition the
entry is additionally rendered when the model Stage 1 status key is
iterated before its stage2 key, see the counterexample. -/
theorem stage2_rendered_iff_stage1_success (rs : List Stage1Result)
    (entries : List (String × ModelStatus))
    (hcomp : ∀ e ∈ entries, isStage1Key e.1 = true →
        stage1KeySuccess e.2 = true → e.1 ∈ stage1SuccessFromResults rs) :
    (buildStageGroups rs entries).stage2
      = entries.filterMap (stage2KeySelector (stage1SuccessFromResults rs)) := by
  unfold buildStageGroups
  have h := processEntries_stage2 entries (stage1SuccessFromResults rs)
    (stage1SuccessFromResults rs) {} (fun x => Iff.rfl) hcomp
  simpa using h

/-- Witness for stage2_rendered_iff_stage1_success: with a stage1Results
list recording the success of model m, rendering matches the selector. -/
theorem stage2_rendered_iff_witness :
    (buildStageGroups [{ model := "m", response := "r", timestamp := "t" }]
        entriesStage1First).stage2
      = entriesStage1First.filterMap
          (stage2KeySelector (stage1SuccessFromResults
            [{ model := "m", response := "r", timestamp := "t" }])) :=
  stage2_rendered_iff_stage1_success
    [{ model := "m", response := "r", timestamp := "t" }]
    entriesStage1First (by decide)

/-- Lookup of a key is unaffected by a pointwise update of another
key. -/
theorem lookupMeeting_updateMeeting_ne (ms : MeetingMap) (id j : String)
    (f : MeetingState → MeetingState) (hne : j ≠ id) :
    lookupMeeting (updateMeeting ms j f) id = lookupMeeting ms id := by
  induction ms with
  | nil => rfl
  | cons p rest ih =>
      unfold lookupMeeting updateMeeting at *
      by_cases h : (p.1 == j) = true
      · have hpid : ¬(p.1 == id) = true := by
          rw [beq_iff_eq] at h ⊢
          rw [h]
          exact hne
        rw [List.map_cons, if_pos h,
          @List.find?_cons_of_neg _ (fun q => q.1 == id) (p.1, f p.2) _ hpid,
          @List.find?_cons_of_neg _ (fun q => q.1 == id) p _ hpid]
        exact ih
      · by_cases hpid : (p.1 == id) = true
        · rw [List.map_cons, if_neg h,
            @List.find?_cons_of_pos _ (fun q => q.1 == id) p _ hpid,
            @List.find?_cons_of_pos _ (fun q => q.1 == id) p _ hpid]
        · rw [List.map_cons, if_neg h,
            @List.find?_cons_of_neg _ (fun q => q.1 == id) p _ hpid,
            @List.find?_cons_of_neg _ (fun q => q.1 == id) p _ hpid]
          exact ih

/-- A map with a true any-test on a key has a successful lookup of that
key. -/
theorem lookup_isSome_of_any (ms : MeetingMap) (j : String)
    (h : ms.any (fun p => p.1 == j) = true) :
    ∃ w, lookupMeeting ms j = some w := by
  induction ms with
  | nil => cases h
  | cons p rest ih =>
      unfold lookupMeeting at *
      by_cases hp : (p.1 == j) = true
      · exact ⟨p.2, by
          rw [@List.find?_cons_of_pos _ (fun q => q.1 == j) p _ hp]
          rfl⟩
      · rw [List.any_cons] at h
        have h2 : rest.any (fun p => p.1 == j) = true := by
          rcases (Bool.or_eq_true _ _).mp h with hx | hx
          · exact absurd hx hp
          · exact hx
        obtain ⟨w, hw⟩ := ih h2
        exact ⟨w, by
          rw [@List.find?_cons_of_neg _ (fun q => q.1 == j) p _ hp]
          exact hw⟩

/-- A map with a false any-test on a key has no entry for that key. -/
theorem lookup_none_of_not_any (ms : MeetingMap) (j : String)
    (h : ¬ms.any (fun p => p.1 == j) = true) :
    lookupMeeting ms j = none := by
  induction ms with
  | nil => rfl
  | cons p rest ih =>
      unfold lookupMeeting at *
      rw [List.any_cons] at h
      by_cases hp : (p.1 == j) = true
      · exact absurd ((Bool.or_eq_true _ _).mpr (Or.inl hp)) h
      · rw [@List.find?_cons_of_neg _ (fun q => q.1 == j) p _ hp]
        exact ih (fun hx => h ((Bool.or_eq_true _ _).mpr (Or.inr hx)))

/-- Appending a fresh entry to a map without that key makes it
findable. -/
theorem lookupMeeting_append_single (ms : MeetingMap) (j : String)
    (st : MeetingState) (h : lookupMeeting ms j = none) :
    lookupMeeting (ms ++ [(j, st)]) j = some st := by
  induction ms with
  | nil =>
      unfold lookupMeeting
      rw [List.nil_append,
        @List.find?_cons_of_pos _ (fun q => q.1 == j) (j, st) _ (by simp)]
      rfl
  | cons p rest ih =>
      unfold lookupMeeting at *
      by_cases hp : (p.1 == j) = true
      · rw [@List.find?_cons_of_pos _ (fun q => q.1 == j) p _ hp] at h
        cases h
      · rw [List.cons_append,
          @List.find?_cons_of_neg _ (fun q => q.1 == j) p _ hp]
        rw [@List.find?_cons_of_neg _ (fun q => q.1 == j) p _ hp] at h
        exact ih h

/-- Appending an entry for another key does not change a lookup. -/
theorem lookupMeeting_append_single_ne (ms : MeetingMap) (id j : String)
    (st : MeetingState) (hne : j ≠ id) :
    lookupMeeting (ms ++ [(j, st)]) id = lookupMeeting ms id := by
  induction ms with
  | nil =>
      unfold lookupMeeting
      rw [List.nil_append,
        @List.find?_cons_of_neg _ (fun q => q.1 == id) (j, st) _
          (by simpa using hne)]
  | cons p rest ih =>
      unfold lookupMeeting at *
      by_cases hp : (p.1 == id) = true
      · rw [List.cons_append,
          @List.find?_cons_of_pos _ (fun q => q.1 == id) p _ hp,
          @List.find?_cons_of_pos _ (fun q => q.1 == id) p _ hp]
      · rw [List.cons_append,
          @List.find?_cons_of_neg _ (fun q => q.1 == id) p _ hp,
          @List.find?_cons_of_neg _ (fun q => q.1 == id) p _ hp]
        exact ih

/-- Lookup after a set of the same key returns the inserted state. -/
theorem lookupMeeting_insertMeeting_self (ms : MeetingMap) (j : String)
    (st : MeetingState) :
    lookupMeeting (insertMeeting ms j st) j = some st := by
  unfold insertMeeting
  by_cases h : ms.any (fun p => p.1 == j) = true
  · rw [if_pos h, lookupMeeting_updateMeeting_self]
    obtain ⟨w, hw⟩ := lookup_isSome_of_any ms j h
    rw [hw]
    rfl
  · rw [if_neg h]
    exact lookupMeeting_append_single ms j st (lookup_none_of_not_any ms j h)

/-- Lookup of a key is unaffected by a set of another key. -/
theorem lookupMeeting_insertMeeting_ne (ms : MeetingMap) (id j : String)
    (st : MeetingState) (hne : j ≠ id) :
    lookupMeeting (insertMeeting ms j st) id = lookupMeeting ms id := by
  unfold insertMeeting
  by_cases h : ms.any (fun p => p.1 == j) = true
  · rw [if_pos h, lookupMeeting_updateMeeting_ne ms id j _ hne]
  · rw [if_neg h, lookupMeeting_append_single_ne ms id j st hne]

/-- A reconnect whose status fetch succeeds returns normally, with the
snapshot written and the subscription re-opened exactly for a
non-terminal fetched status. -/
theorem reconnectMeeting_ok (fetch : List (String × FetchedMeeting))
    (ms : MeetingMap) (id : String) (st0 : MeetingState)
    (latest : FetchedMeeting) (hst : lookupMeeting ms id = some st0)
    (hf : (fetch.find? (fun p => p.1 == id)).map Prod.snd = some latest) :
    reconnectMeeting fetch ms id
      = .ok (updateMeeting ms id (fun st =>
          let st2 := { st with status := latest.status,
                               progressError := latest.progressError }
          if st2.status != "completed" && st2.status != "failed"
             && st2.status != "cancelled"
          then { st2 with eventSourceOpen := true }
          else st2)) := by
  unfold reconnectMeeting
  rw [hst, hf]

/-- A reconnect of a known meeting whose status fetch throws rethrows
with the map unchanged. -/
theorem reconnectMeeting_error (fetch : List (String × FetchedMeeting))
    (ms : MeetingMap) (id : String) (st0 : MeetingState)
    (hst : lookupMeeting ms id = some st0)
    (hf : (fetch.find? (fun p => p.1 == id)).map Prod.snd = none) :
    reconnectMeeting fetch ms id = .error ms := by
  unfold reconnectMeeting
  rw [hst, hf]

/-- Restoring records that all concern other meeting ids leaves a
lookup unchanged, whether or not the loop aborts on a failed fetch. -/
theorem restore_lookup_frame (fetch : List (String × FetchedMeeting))
    (stored : List StoredMeeting) (id : String) :
    ∀ acc : MeetingMap, (∀ d ∈ stored, d.meetingId ≠ id) →
    lookupMeeting (restoreMeetingsFromStorage fetch acc stored) id
      = lookupMeeting acc id := by
  induction stored with
  | nil => intro acc _; rfl
  | cons d rest ih =>
      intro acc h
      have hd : d.meetingId ≠ id := h d (List.mem_cons_self _ _)
      have hrest : ∀ d2 ∈ rest, d2.meetingId ≠ id :=
        fun d2 h2 => h d2 (List.mem_cons_of_mem _ h2)
      unfold restoreMeetingsFromStorage
      by_cases hterm : (d.status != "completed" && d.status != "failed"
          && d.status != "cancelled") = true
      · rw [if_pos hterm]
        have hself := lookupMeeting_insertMeeting_self acc d.meetingId
          (storedInitState d)
        cases hf : (fetch.find? (fun p => p.1 == d.meetingId)).map Prod.snd with
        | none =>
            rw [reconnectMeeting_error fetch _ _ _ hself hf]
            exact lookupMeeting_insertMeeting_ne acc id d.meetingId _ hd
        | some latest =>
            rw [reconnectMeeting_ok fetch _ _ _ _ hself hf]
            show lookupMeeting (restoreMeetingsFromStorage fetch _ rest) id
                = lookupMeeting acc id
            rw [ih _ hrest, lookupMeeting_updateMeeting_ne _ _ _ _ hd,
              lookupMeeting_insertMeeting_ne _ _ _ _ hd]
      · rw [if_neg hterm]
        exact ih acc hrest

/-- A non-terminal stored record whose status fetch throws aborts the
restore loop: the result is the map right after that record was put
back, unsubscribed and with its stored status, and no later record is
processed. -/
theorem restore_aborts_on_failed_fetch (fetch : List (String × FetchedMeeting))
    (acc : MeetingMap) (d : StoredMeeting) (rest : List StoredMeeting)
    (hterm : (d.status != "completed" && d.status != "failed"
        && d.status != "cancelled") = true)
    (hf : (fetch.find? (fun p => p.1 == d.meetingId)).map Prod.snd = none) :
    restoreMeetingsFromStorage fetch acc (d :: rest)
      = insertMeeting acc d.meetingId (storedInitState d) := by
  unfold restoreMeetingsFromStorage
  rw [if_pos hterm,
    reconnectMeeting_error fetch _ _ (storedInitState d)
      (lookupMeeting_insertMeeting_self acc d.meetingId (storedInitState d)) hf]

/-- Characterization of the restore pass when every non-terminal stored
record has a backend snapshot, so no fetch throws and the loop runs to
the end: a meeting id is then found in the restored map according to
its first stored record, restored through restoredState when the stored
status is not terminal, skipped otherwise. -/
theorem restore_lookup (fetch : List (String × FetchedMeeting))
    (stored : List StoredMeeting) (id : String) :
    ∀ acc : MeetingMap,
    (stored.map (fun d => d.meetingId)).Nodup →
    (∀ d ∈ stored, (d.status != "completed" && d.status != "failed"
        && d.status != "cancelled") = true →
      ((fetch.find? (fun p => p.1 == d.meetingId)).map Prod.snd).isSome) →
    lookupMeeting (restoreMeetingsFromStorage fetch acc stored) id
      = (match stored.find? (fun d => d.meetingId == id) with
         | some d =>
             if d.status != "completed" && d.status != "failed"
                && d.status != "cancelled"
             then some (restoredState fetch d)
             else lookupMeeting acc id
         | none => lookupMeeting acc id) := by
  induction stored with
  | nil => intro acc _ _; rfl
  | cons d rest ih =>
      intro acc hnd hfetch
      rw [List.map_cons, List.nodup_cons] at hnd
      have hfetchrest : ∀ d2 ∈ rest, (d2.status != "completed"
          && d2.status != "failed" && d2.status != "cancelled") = true →
          ((fetch.find? (fun p => p.1 == d2.meetingId)).map Prod.snd).isSome :=
        fun d2 h2 => hfetch d2 (List.mem_cons_of_mem _ h2)
      unfold restoreMeetingsFromStorage
      by_cases hd : (d.meetingId == id) = true
      · have hdid : d.meetingId = id := beq_iff_eq.mp hd
        have hrest : ∀ d2 ∈ rest, d2.meetingId ≠ id := by
          intro d2 h2 hcontra
          apply hnd.1
          rw [hdid]
          exact List.mem_map.mpr ⟨d2, h2, hcontra⟩
        rw [@List.find?_cons_of_pos _ (fun d => d.meetingId == id) d _ hd]
        by_cases hterm : (d.status != "completed" && d.status != "failed"
            && d.status != "cancelled") = true
        · obtain ⟨latest, hf⟩ := Option.isSome_iff_exists.mp
            (hfetch d (List.mem_cons_self _ _) hterm)
          have hself := lookupMeeting_insertMeeting_self acc d.meetingId
            (storedInitState d)
          rw [if_pos hterm, reconnectMeeting_ok fetch _ _ _ _ hself hf]
          show lookupMeeting (restoreMeetingsFromStorage fetch _ rest) id
              = if (d.status != "completed" && d.status != "failed"
                  && d.status != "cancelled") = true
                then some (restoredState fetch d)
                else lookupMeeting acc id
          rw [if_pos hterm, restore_lookup_frame fetch rest id _ hrest, ← hdid,
            lookupMeeting_updateMeeting_self, hself]
          unfold restoredState
          rw [hf]
          rfl
        · rw [if_neg hterm]
          show lookupMeeting (restoreMeetingsFromStorage fetch acc rest) id
              = if (d.status != "completed" && d.status != "failed"
                  && d.status != "cancelled") = true
                then some (restoredState fetch d)
                else lookupMeeting acc id
          rw [if_neg hterm, restore_lookup_frame fetch rest id acc hrest]
      · have hda : d.meetingId ≠ id := fun hcontra => hd (beq_iff_eq.mpr hcontra)
        rw [@List.find?_cons_of_neg _ (fun d => d.meetingId == id) d _ hd]
        by_cases hterm : (d.status != "completed" && d.status != "failed"
            && d.status != "cancelled") = true
        · obtain ⟨latest, hf⟩ := Option.isSome_iff_exists.mp
            (hfetch d (List.mem_cons_self _ _) hterm)
          have hself := lookupMeeting_insertMeeting_self acc d.meetingId
            (storedInitState d)
          rw [if_pos hterm, reconnectMeeting_ok fetch _ _ _ _ hself hf]
          have hframe : ∀ f2,
              lookupMeeting (updateMeeting
                (insertMeeting acc d.meetingId (storedInitState d))
                d.meetingId f2) id
              = lookupMeeting acc id := by
            intro f2
            rw [lookupMeeting_updateMeeting_ne _ _ _ _ hda,
              lookupMeeting_insertMeeting_ne _ _ _ _ hda]
          show lookupMeeting (restoreMeetingsFromStorage fetch _ rest) id = _
          rw [ih _ hnd.2 hfetchrest]
          cases hf2 : rest.find? (fun d => d.meetingId == id) with
          | none => exact hframe _
          | some d2 =>
              show (if (d2.status != "completed" && d2.status != "failed"
                      && d2.status != "cancelled") = true
                    then some (restoredState fetch d2)
                    else lookupMeeting (updateMeeting
                      (insertMeeting acc d.meetingId (storedInitState d))
                      d.meetingId _) id)
                  = if (d2.status != "completed" && d2.status != "failed"
                      && d2.status != "cancelled") = true
                    then some (restoredState fetch d2)
                    else lookupMeeting acc id
              rw [hframe _]
        · rw [if_neg hterm, ih acc hnd.2 hfetchrest]

/-- C5 counterexample: a stored meeting with the non-terminal status
stage2 is restored into the map, yet no subscription is re-opened,
because the status fetched during reconnection is already completed; so
restore-and-resubscribe is not equivalent to the stored status being
non-terminal. -/
theorem restore_active_not_resubscribed :
    storedSample.map (fun d => d.status) = ["stage2"]
    ∧ isTerminalStatus "stage2" = false
    ∧ (lookupMeeting (restoreMeetingsFromStorage fetchSample [] storedSample)
        "m1").map (fun s => (s.status, s.eventSourceOpen))
      = some ("completed", false) := by
  exact ⟨by decide, by decide, by decide⟩

/-- C5 amended: the terminal set is exactly completed, failed and
cancelled; getActiveMeeting only returns meetings whose status is none
of the three; when no status fetch throws, a stored meeting is restored
into the map (and reconnection attempted) exactly when its stored
status is none of the three; the reconnection performed during restore
re-opens a subscription exactly when the status fetched from the
backend is also none of the three; and a non-terminal record whose
status fetch throws stays in the map unsubscribed with its stored
status while the restore loop aborts, skipping every later record. -/
theorem terminal_statuses_spec :
    (∀ ms conv m, getActiveMeeting ms conv = some m →
        m.status ≠ "completed" ∧ m.status ≠ "failed" ∧ m.status ≠ "cancelled")
    ∧ (∀ (fetch : List (String × FetchedMeeting)) (stored : List StoredMeeting)
          (id : String),
        (stored.map (fun d => d.meetingId)).Nodup →
        (∀ d ∈ stored, (d.status != "completed" && d.status != "failed"
            && d.status != "cancelled") = true →
          ((fetch.find? (fun p => p.1 == d.meetingId)).map Prod.snd).isSome) →
        lookupMeeting (restoreMeetingsFromStorage fetch [] stored) id
          = (match stored.find? (fun d => d.meetingId == id) with
             | some d =>
                 if d.status != "completed" && d.status != "failed"
                    && d.status != "cancelled"
                 then some (restoredState fetch d)
                 else none
             | none => none))
    ∧ (∀ (fetch : List (String × FetchedMeeting)) (d : StoredMeeting) latest,
        (fetch.find? (fun p => p.1 == d.meetingId)).map Prod.snd = some latest →
        (restoredState fetch d).status = latest.status
        ∧ (restoredState fetch d).eventSourceOpen
            = (latest.status != "completed" && latest.status != "failed"
               && latest.status != "cancelled"))
    ∧ (∀ (fetch : List (String × FetchedMeeting)) (d : StoredMeeting),
        (fetch.find? (fun p => p.1 == d.meetingId)).map Prod.snd = none →
        (restoredState fetch d).eventSourceOpen = false
        ∧ (restoredState fetch d).status = d.status)
    ∧ (∀ (fetch : List (String × FetchedMeeting)) (acc : MeetingMap)
          (d : StoredMeeting) (rest : List StoredMeeting),
        (d.status != "completed" && d.status != "failed"
          && d.status != "cancelled") = true →
        (fetch.find? (fun p => p.1 == d.meetingId)).map Prod.snd = none →
        restoreMeetingsFromStorage fetch acc (d :: rest)
          = insertMeeting acc d.meetingId (storedInitState d)) := by
  refine ⟨?_, ?_, ?_, ?_, ?_⟩
  · intro ms conv m h
    have hp := List.find?_some h
    simp only [Bool.and_eq_true, bne_iff_ne, ne_eq] at hp
    exact ⟨hp.1.1, hp.1.2, hp.2⟩
  · intro fetch stored id hnd hfetch
    have h := restore_lookup fetch stored id [] hnd hfetch
    have hnil : lookupMeeting ([] : MeetingMap) id = none := rfl
    rw [hnil] at h
    exact h
  · intro fetch d latest hf
    have hred : restoredState fetch d
        = (if (latest.status != "completed" && latest.status != "failed"
              && latest.status != "cancelled") = true
           then { meetingId := d.meetingId, convId := d.convId,
                  status := latest.status,
                  progressError := latest.progressError,
                  progressEvents := [], eventSourceOpen := true,
                  createdAt := d.createdAt }
           else { meetingId := d.meetingId, convId := d.convId,
                  status := latest.status,
                  progressError := latest.progressError,
                  progressEvents := [], eventSourceOpen := false,
                  createdAt := d.createdAt }) := by
      unfold restoredState
      rw [hf]
      rfl
    rw [hred]
    by_cases hterm : (latest.status != "completed" && latest.status != "failed"
        && latest.status != "cancelled") = true
    · rw [if_pos hterm, hterm]
      exact ⟨rfl, rfl⟩
    · rw [if_neg hterm]
      refine ⟨rfl, ?_⟩
      rw [Bool.not_eq_true] at hterm
      rw [hterm]
  · intro fetch d hf
    unfold restoredState
    rw [hf]
    exact ⟨rfl, rfl⟩
  · intro fetch acc d rest hterm hf
    exact restore_aborts_on_failed_fetch fetch acc d rest hterm hf

/-- Witness for terminal_statuses_spec: the restore characterization
evaluated on the sample stored record and backend snapshot. -/
theorem terminal_statuses_spec_witness :
    lookupMeeting (restoreMeetingsFromStorage fetchSample [] storedSample) "m1"
      = (match storedSample.find? (fun d => d.meetingId == "m1") with
         | some d =>
             if d.status != "completed" && d.status != "failed"
                && d.status != "cancelled"
             then some (restoredState fetchSample d)
             else none
         | none => none) :=
  terminal_statuses_spec.2.1 fetchSample storedSample "m1" (by decide) (by decide)

end LLMCouncil
